import Mathlib

/-
Verification development for the breeze-prompter enhancement pipeline.

The Python sources under `app/` are shallowly embedded as executable Lean
definitions: strings are Lean `String`s (lists of characters), Python's
substring / prefix membership tests are implemented on `List Char`, JSON
values parsed out of backend completions are an inductive `JVal`, Python
exceptions are `Except` errors, and each backend chat-completion call reads
the next entry of an oracle `Nat → String` of raw completion texts.  The
`json.loads` library call is a parameter `loads : String → Option JVal`
(returning `none` when parsing raises), and the web-knowledge HTTP fetch is
a parameter `provider : String → FetchPayload`.

Floating-point note: `RoleDetector.get_complexity_level` adds 1.5 per
multi-step indicator; every value the accumulator can take is an exact
multiple of 0.5, so the accumulator is embedded in half-points as an `Int`
(each Python addition of x appears as 2*x, the 1.5 weight as 3, and the
thresholds -1 and 3 as -2 and 6).
-/

/-! ## String utilities (Python `str` operations on ASCII text) -/

def isWS (c : Char) : Bool :=
  c = ' ' || c = '\t' || c = '\n' || c = '\r'

/-- Python `str.lower()` (ASCII). -/
def lowerStr (s : String) : String :=
  String.mk (s.data.map Char.toLower)

/-- Python `s.strip()`: drop leading and trailing whitespace. -/
def pyStrip (s : String) : String :=
  String.mk (((s.data.dropWhile (fun c => isWS c)).reverse.dropWhile
    (fun c => isWS c)).reverse)

/-- Python `pat in s` on character lists (empty pattern matches). -/
def infixOf (pat : List Char) : List Char → Bool
  | [] => pat.isEmpty
  | c :: t => pat.isPrefixOf (c :: t) || infixOf pat t

/-- Python `pat in s`. -/
def strContains (s pat : String) : Bool :=
  infixOf pat.data s.data

/-- Python `s.startswith(pat)`. -/
def strStartsWith (s pat : String) : Bool :=
  pat.data.isPrefixOf s.data

def wordsOfAux : List Char → List Char → List String
  | [], acc => if acc.isEmpty then [] else [String.mk acc.reverse]
  | c :: t, acc =>
    if isWS c then
      (if acc.isEmpty then wordsOfAux t [] else String.mk acc.reverse :: wordsOfAux t [])
    else wordsOfAux t (c :: acc)

/-- Python `s.split()` with no separator: maximal runs of non-whitespace. -/
def wordsOf (s : String) : List String :=
  wordsOfAux s.data []

/-- Python `len(s.split())`. -/
def wordCount (s : String) : Nat :=
  (wordsOf s).length

/-- The characters after the first occurrence of `sep`, `none` if absent. -/
def afterFirstSep (sep : List Char) : List Char → Option (List Char)
  | [] => if sep.isEmpty then some [] else none
  | c :: t =>
    if sep.isPrefixOf (c :: t) then some ((c :: t).drop sep.length)
    else afterFirstSep sep t

/-- The characters before the first occurrence of `sep` (everything if absent). -/
def beforeFirstSep (sep : List Char) : List Char → List Char
  | [] => []
  | c :: t => if sep.isPrefixOf (c :: t) then [] else c :: beforeFirstSep sep t

/-- Python `list.insert(i, x)` (appends when `i` is past the end). -/
def insertAt : Nat → String → List String → List String
  | 0, x, l => x :: l
  | _ + 1, x, [] => [x]
  | n + 1, x, h :: t => h :: insertAt n x t

def lbrace : Char := Char.ofNat 123

def rbrace : Char := Char.ofNat 125

def countChar (s : String) (c : Char) : Nat :=
  s.data.count c

/-! ## Data model (`app/models/schemas.py`) -/

inductive PromptContext where
  | coding | writing | analysis | creative | technical | general
deriving DecidableEq, Repr

def PromptContext.value : PromptContext → String
  | .coding => "coding"
  | .writing => "writing"
  | .analysis => "analysis"
  | .creative => "creative"
  | .technical => "technical"
  | .general => "general"

inductive PromptStyle where
  | concise | detailed | technical | conversational
deriving DecidableEq, Repr

def PromptStyle.value : PromptStyle → String
  | .concise => "concise"
  | .detailed => "detailed"
  | .technical => "technical"
  | .conversational => "conversational"

structure PromptRequest where
  prompt : String
  context : PromptContext
  style : PromptStyle
  include_examples : Bool
  fetch_current_knowledge : Bool
deriving DecidableEq, Repr

structure PromptScore where
  clarity : Int
  specificity : Int
  completeness : Int
  overall : Int
deriving DecidableEq, Repr

structure Improvement where
  category : String
  description : String
  before : Option String
  after : Option String
deriving DecidableEq, Repr

structure PromptResponse where
  original_prompt : String
  enhanced_prompt : String
  improvements : List Improvement
  explanation : String
  score_before : PromptScore
  score_after : PromptScore
  tips : List String
deriving DecidableEq, Repr

/-! ## RoleDetector (`app/services/role_detector.py`) -/

def SIMPLE_QUERY_INDICATORS : List String :=
  ["what is", "what\x27s", "how many", "how much", "when is", "when was",
   "where is", "where are", "list", "name", "define", "calculate",
   "convert", "translate", "what time", "what date", "who is", "who was"]

def ROLE_BENEFICIAL_INDICATORS : List String :=
  ["write", "create", "design", "analyze", "review", "optimize", "debug",
   "explain like", "act as", "pretend", "imagine", "develop", "architect",
   "diagnose", "troubleshoot", "evaluate", "assess", "critique", "refactor"]

def CONTEXT_ROLES : PromptContext → Option String
  | .coding => some "expert software engineer"
  | .writing => some "professional writer and editor"
  | .analysis => some "data analyst"
  | .creative => some "creative professional"
  | .technical => some "technical expert"
  | .general => none

/-- Embeds `RoleDetector.needs_role`. -/
def needs_role (prompt : String) (context : PromptContext) : Bool × Option String :=
  let prompt_lower := pyStrip (lowerStr prompt)
  if SIMPLE_QUERY_INDICATORS.any (fun i => strStartsWith prompt_lower i) then (false, none)
  else if wordCount prompt < 5 then (false, none)
  else if ["you are", "act as", "pretend to be", "imagine you\x27re"].any
      (fun p => strContains prompt_lower p) then (false, none)
  else
    let needs0 := ROLE_BENEFICIAL_INDICATORS.any (fun i => strContains prompt_lower i)
    let needs := needs0 ||
      (context = PromptContext.coding || context = PromptContext.writing ||
       context = PromptContext.technical)
    if needs then
      let role0 := CONTEXT_ROLES context
      let role :=
        if role0.isNone || context = PromptContext.general then
          if ["code", "program", "function", "algorithm"].any
              (fun w => strContains prompt_lower w) then
            some "expert software engineer"
          else if ["essay", "article", "blog", "story"].any
              (fun w => strContains prompt_lower w) then
            some "professional writer"
          else if ["data", "statistics", "metrics", "analysis"].any
              (fun w => strContains prompt_lower w) then
            some "data analyst"
          else if ["design", "ui", "ux", "interface"].any
              (fun w => strContains prompt_lower w) then
            some "UI/UX designer"
          else some "expert assistant"
        else role0
      (true, role)
    else (false, none)

def simple_patterns : List String :=
  ["what is", "what\x27s", "how many", "how much", "when is", "when was",
   "where is", "list", "name", "define", "calculate", "convert", "translate"]

def explain_patterns : List String :=
  ["explain", "describe how", "how does", "how do"]

/-- Step 1 of `get_complexity_level`: the simple-query / explanation
adjustment applied to the accumulator, in the source's units
(`-2` simple-lookup, `+1` explanation, `0` neither). -/
def simple_explain_adjust (prompt_lower : String) : Int :=
  if simple_patterns.any (fun p => strContains prompt_lower p) then -2
  else if explain_patterns.any (fun p => strContains prompt_lower p) then 1
  else 0

def multi_step_indicators : List String :=
  ["and then", "after that", "next", "finally", "first", "second",
   "step by step", "detailed", "comprehensive", "complete"]

def technical_indicators : List String :=
  ["implement", "architect", "design", "optimize", "refactor",
   "debug", "integrate", "deploy", "configure", "analyze",
   "evaluate", "compare", "benchmark", "profile", "test"]

def creation_indicators : List String :=
  ["build", "create", "develop", "make", "construct", "generate",
   "write a program", "write an app", "write a system", "build an app"]

def complex_scope_words : List String :=
  ["entire", "full", "complete", "comprehensive", "production",
   "enterprise", "scalable", "real-time", "production-ready"]

def simple_scope_words : List String :=
  ["basic", "simple", "quick", "small"]

def multiple_indicators : List String :=
  ["multiple", "various", "different", "several", "many",
   "list of", "array of", "collection of"]

def constraint_indicators : List String :=
  ["must", "should", "need to", "require", "ensure",
   "make sure", "guarantee", "with", "without", "using"]

def code_shape_tokens : List String :=
  ["()", "\x7b\x7d", "[]", "->", "=>", "function", "class", "def"]

/-- Embeds `RoleDetector.get_complexity_level`.  The accumulator is kept in
half-points (see the file header): each Python `+= x` appears as `+ 2*x`,
the `1.5 * count` weight as `3 * count`, and the thresholds `<= -1` and
`<= 3` as `<= -2` and `<= 6`. -/
def get_complexity_level (prompt : String) : String :=
  let prompt_lower := lowerStr prompt
  let word_count := wordCount prompt
  let s1 : Int := 2 * simple_explain_adjust prompt_lower
  let s2 : Int :=
    if word_count < 5 then -2
    else if word_count < 10 then 0
    else if word_count < 20 then 2
    else if word_count < 40 then 4
    else 6
  let multi_step_count : Int :=
    (multi_step_indicators.filter (fun p => strContains prompt_lower p)).length
  let s3 : Int := 3 * multi_step_count
  let technical_count : Int :=
    (technical_indicators.filter (fun p => strContains prompt_lower p)).length
  let s4 : Int := 2 * technical_count
  let s5 : Int := creation_indicators.foldl
    (fun acc ind =>
      if strContains prompt_lower ind then
        if strContains prompt_lower "simple" && (ind = "create" || ind = "make") then
          acc + 2
        else acc + 6
      else acc) 0
  let s6 : Int :=
    (if simple_scope_words.any (fun w => strContains prompt_lower w) then
      if ["create", "build", "make"].any (fun c => strContains prompt_lower c) then 0 else -2
     else 0) +
    (if complex_scope_words.any (fun w => strContains prompt_lower w) then 6 else 0)
  let s7 : Int :=
    if multiple_indicators.any (fun p => strContains prompt_lower p) then 2 else 0
  let constraint_count :=
    (constraint_indicators.filter (fun p => strContains prompt_lower p)).length
  let s8 : Int := if constraint_count > 2 then 2 else 0
  let question_marks := countChar prompt '?'
  let s9 : Int := if question_marks > 1 then 2 * ((question_marks : Int) - 1) else 0
  let s10 : Int :=
    if code_shape_tokens.any (fun tok => strContains prompt tok) then 2 else 0
  let score := s1 + s2 + s3 + s4 + s5 + s6 + s7 + s8 + s9 + s10
  if score ≤ -2 then "simple"
  else if score ≤ 6 then "moderate"
  else "complex"


/-! ## JSON values and Python dict operations -/

inductive JVal where
  | jnull : JVal
  | jbool : Bool → JVal
  | jnum : Int → JVal
  | jstr : String → JVal
  | jarr : List JVal → JVal
  | jobj : List (String × JVal) → JVal

/-- Python exceptions that can escape the orchestration layer. -/
inductive PErr where
  | keyError : String → PErr
  | typeError : PErr
  | attributeError : PErr
  | validationError : PErr
deriving DecidableEq, Repr

def lookupF : List (String × JVal) → String → Option JVal
  | [], _ => none
  | (k, v) :: t, key => if k = key then some v else lookupF t key

/-- Python `d[key] = v` on an insertion-ordered dict. -/
def setField : List (String × JVal) → String → JVal → List (String × JVal)
  | [], key, v => [(key, v)]
  | (k, w) :: t, key, v =>
    if k = key then (k, v) :: t else (k, w) :: setField t key v

/-- Python truthiness of a JSON value. -/
def truthy : JVal → Bool
  | .jnull => false
  | .jbool b => b
  | .jnum n => n != 0
  | .jstr s => !s.isEmpty
  | .jarr xs => !xs.isEmpty
  | .jobj fs => !fs.isEmpty

/-- Python `d.get(key)` (default `None`) on a dict. -/
def pyGet (fs : List (String × JVal)) (k : String) : JVal :=
  (lookupF fs k).getD .jnull

/-- Python `v[key]`: `KeyError` when the key is missing, `TypeError`
when `v` is not a dict. -/
def jSubscript (v : JVal) (k : String) : Except PErr JVal :=
  match v with
  | .jobj fs =>
    match lookupF fs k with
    | some x => .ok x
    | none => .error (.keyError k)
  | _ => .error .typeError

/-- Python `v[key] = x`. -/
def jSetItem (v : JVal) (k : String) (x : JVal) : Except PErr JVal :=
  match v with
  | .jobj fs => .ok (.jobj (setField fs k x))
  | _ => .error .typeError

/-- Python `v.get(key, d)`: `AttributeError` when `v` is not a dict. -/
def jGetD (v : JVal) (k : String) (d : JVal) : Except PErr JVal :=
  match v with
  | .jobj fs => .ok ((lookupF fs k).getD d)
  | _ => .error .attributeError

/-- Python `v == s` for a string literal `s`. -/
def pyEqStr (v : JVal) (s : String) : Bool :=
  match v with
  | .jstr t => t = s
  | _ => false

/-- Rendering of a JSON value inside a Python f-string (`str(v)`); the
rendering of containers is abstracted, no claim depends on it. -/
def renderJ : JVal → String
  | .jnull => "None"
  | .jbool b => if b then "True" else "False"
  | .jnum n => toString n
  | .jstr s => s
  | .jarr _ => "[...]"
  | .jobj _ => "\x7b...\x7d"

/-- Pydantic validation of `List[str]` (a list whose items are all
strings; `None` is accepted for the optional `tips` field). -/
def asStrList : JVal → Option (List String)
  | .jnull => some []
  | .jarr xs =>
    xs.foldr (fun x acc =>
      match x, acc with
      | .jstr s, some l => some (s :: l)
      | _, _ => none) (some [])
  | _ => none

/-! ## JSON extraction chains (`app/services/prompt_enhancer.py`) -/

/-- Computes `response.split("```json")[1].split("```")[0].strip()`, total under the
guard that `"```json"` occurs in `response` (`.getD` is unreachable then). -/
def fencedPart (response : String) : String :=
  pyStrip (String.mk (beforeFirstSep ("```".data)
    ((afterFirstSep ("```json".data) response.data).getD [])))

/-- Computes `response[response.index("\x7b") : response.rindex("\x7d") + 1]`, total
under the guard that both braces occur. -/
def braceSlicePart (response : String) : String :=
  let l := response.data
  let i := l.findIdx (fun c => c = lbrace)
  let j := l.length - 1 - (l.reverse.findIdx (fun c => c = rbrace))
  String.mk ((l.drop i).take (j + 1 - i))

/-- The extraction used by `_generate_enhanced_prompt`,
`_generate_simple_enhancement` and `enhance_prompt_fast` (the three source
copies are textually identical up to `find`/`index`, which agree under the
containment guards). -/
def extract_generate (response : String) : String :=
  if strContains response "```json" then fencedPart response
  else if strContains response "\x7b" && strContains response "\x7d" then
    braceSlicePart response
  else response

/-- The extraction used by `_analyze_prompt`: fenced block, else the full
text (no brace-slicing step). -/
def extract_analyze (response : String) : String :=
  if strContains response "```json" then fencedPart response
  else response

def takeUntilRbrace : List Char → List Char × List Char
  | [] => ([], [])
  | c :: t =>
    if c = rbrace then ([], c :: t)
    else
      let (a, b) := takeUntilRbrace t
      (c :: a, b)

/-- Embeds `re.search` for the pattern `\x7b[^\x7d]+\x7d`: leftmost position whose
opening brace is followed by at least one non-`\x7d` character and then a
closing brace (the greedy character class cannot cross a `\x7d`, so greedy
matching is exact here). -/
def regexBraceSearch : List Char → Option (List Char)
  | [] => none
  | c :: t =>
    if c = lbrace then
      let (run, rest) := takeUntilRbrace t
      match run, rest with
      | _ :: _, r :: _ =>
        if r = rbrace then some (lbrace :: run ++ [rbrace])
        else regexBraceSearch t
      | _, _ => regexBraceSearch t
    else regexBraceSearch t

/-- The extraction used by `_score_prompt`: fenced block, else the first
regex match of `\x7b[^\x7d]+\x7d`, else the full text. -/
def extract_score (response : String) : String :=
  if strContains response "```json" then fencedPart response
  else
    match regexBraceSearch response.data with
    | some m => String.mk m
    | none => response

/-- Modelled from the spec's words (§4.3, "three-step fallback"), for
comparison with the source extractions: (a) fenced ```json block when
present, (b) else the slice from the first `\x7b` to the last `\x7d` when
both occur, (c) else the full text. -/
def three_step_chain_spec (response : String) : String :=
  match afterFirstSep ("```json".data) response.data with
  | some tail => pyStrip (String.mk (beforeFirstSep ("```".data) tail))
  | none =>
    if response.data.contains lbrace && response.data.contains rbrace then
      braceSlicePart response
    else response

/-! ## PromptEnhancer building blocks (`app/services/prompt_enhancer.py`) -/

/-- The canned quicksort enhancement of `_generate_default_enhancement`. -/
def canned_sort_enhancement : String :=
  "Write a Python function called `sort_array` that implements the quicksort algorithm to sort a list of integers.\n\nRequirements:\n- Function signature: `def sort_array(arr: List[int]) -> List[int]:`\n- Sort in ascending order\n- Handle edge cases: empty list, single element, duplicates\n- Include type hints\n- Add a docstring with description and usage example\n- Time complexity should be O(n log n) average case\n\nExample usage:\n```python\nresult = sort_array([3, 1, 4, 1, 5, 9, 2, 6])\nprint(result)  # Output: [1, 1, 2, 3, 4, 5, 6, 9]\n```\n\nReturn the sorted list without modifying the original."

def default_enhancement_suffix : String :=
  "\n\nPlease provide:\n1. Specific requirements and constraints\n2. Expected output format\n3. Any relevant context or background\n4. Examples if applicable"

/-- Embeds `PromptEnhancer._generate_default_enhancement` (the `style` and
`include_examples` parameters are unused in the source body too). -/
def generate_default_enhancement (original : String) (context : PromptContext)
    (_style : PromptStyle) (_include_examples : Bool) : String :=
  if strContains (lowerStr original) "sort" && context = PromptContext.coding then
    canned_sort_enhancement
  else
    original ++ default_enhancement_suffix

/-- The fallback analysis dict of `_analyze_prompt`. -/
def default_analysis : List (String × JVal) :=
  [("intent", .jstr "Unable to parse"),
   ("ambiguities", .jarr []),
   ("missing_elements", .jarr []),
   ("strengths", .jarr []),
   ("context_gaps", .jarr [])]

/-- The placeholder analysis used for simple-tier prompts
(`enhance_prompt`, line 47). -/
def simple_analysis : List (String × JVal) :=
  [("intent", .jstr "simple query"),
   ("ambiguities", .jarr []),
   ("missing_elements", .jarr []),
   ("strengths", .jarr []),
   ("context_gaps", .jarr [])]

/-- Embeds `PromptEnhancer._analyze_prompt` applied to the raw completion text
(the chat-message construction is elided; the parsed value is returned
unchecked, even when it is not a JSON object). -/
def analyze_prompt (loads : String → Option JVal) (response : String) : JVal :=
  match loads (extract_analyze response) with
  | some v => v
  | none => .jobj default_analysis

/-- The fallback dict of `_generate_enhanced_prompt`'s `except` branch. -/
def fallback_generate (original : String) (context : PromptContext)
    (style : PromptStyle) (include_examples : Bool) : List (String × JVal) :=
  [("enhanced_prompt", .jstr (generate_default_enhancement original context style include_examples)),
   ("explanation", .jstr "The enhanced prompt provides specific requirements, constraints, and expected output format for better AI comprehension."),
   ("tips", .jarr [.jstr "Always specify the programming language",
                   .jstr "Include input/output examples",
                   .jstr "Define edge cases and constraints"])]

/-- Embeds `PromptEnhancer._generate_enhanced_prompt` applied to the raw
completion text: three-step JSON extraction, then the guard replacing a
falsy/missing or unchanged `enhanced_prompt` by the default enhancement;
a parse failure or a non-dict parse (whose `.get` raises, caught by the
`except`) yields the fallback dict.  The result is always a dict. -/
def generate_enhanced_prompt (loads : String → Option JVal) (original : String)
    (context : PromptContext) (style : PromptStyle) (include_examples : Bool)
    (response : String) : List (String × JVal) :=
  match loads (extract_generate response) with
  | some (.jobj fs) =>
    if !truthy (pyGet fs "enhanced_prompt") || pyEqStr (pyGet fs "enhanced_prompt") original then
      setField fs "enhanced_prompt"
        (.jstr (generate_default_enhancement original context style include_examples))
    else fs
  | some _ => fallback_generate original context style include_examples
  | none => fallback_generate original context style include_examples

/-- Embeds `PromptEnhancer._generate_simple_enhancement` applied to the raw
completion text: same three-step extraction, but the parsed value is
returned unchecked; only a parse failure produces the fallback dict. -/
def simple_enhancement_parse (loads : String → Option JVal) (original : String)
    (response : String) : JVal :=
  match loads (extract_generate response) with
  | some v => v
  | none => .jobj
      [("enhanced_prompt", .jstr (original ++ " (Please provide more specific details)")),
       ("explanation", .jstr "Added request for more details"),
       ("tips", .jarr [.jstr "Be more specific about your requirements"])]

/-- Pydantic validation of one `PromptScore` integer field (bounds 0-100);
coercions of non-integer JSON values are abstracted as failures. -/
def asScore : JVal → Option Int
  | .jnum n => if 0 ≤ n && n ≤ 100 then some n else none
  | _ => none

/-- Embeds `PromptEnhancer._score_prompt` applied to the raw completion text: any
failure inside the `try` (parse failure, non-dict parse, or `PromptScore`
validation) yields the all-50 fallback score. -/
def score_prompt (loads : String → Option JVal) (response : String) : PromptScore :=
  match loads (extract_score response) with
  | some (.jobj fs) =>
    match asScore ((lookupF fs "clarity").getD (.jnum 50)),
          asScore ((lookupF fs "specificity").getD (.jnum 50)),
          asScore ((lookupF fs "completeness").getD (.jnum 50)),
          asScore ((lookupF fs "overall").getD (.jnum 50)) with
    | some c, some s, some co, some o => ⟨c, s, co, o⟩
    | _, _, _, _ => ⟨50, 50, 50, 50⟩
  | _ => ⟨50, 50, 50, 50⟩

/-- One list-field pass of `_extract_improvements`: Python slices the
truthy field value with `[:cap]` and iterates it, which works for lists
and strings and raises `TypeError` otherwise; a non-dict analysis raises
`AttributeError` at the first `.get`. -/
def improvements_from (analysis : JVal) (cap : Nat) (key cat pre : String) :
    Except PErr (List Improvement) :=
  match analysis with
  | .jobj fs =>
    let v := pyGet fs key
    if truthy v then
      match v with
      | .jarr xs => .ok ((xs.take cap).map (fun x => ⟨cat, pre ++ renderJ x, none, none⟩))
      | .jstr s => .ok ((s.data.take cap).map (fun c => ⟨cat, pre ++ String.mk [c], none, none⟩))
      | _ => .error .typeError
    else .ok []
  | _ => .error .attributeError

/-- Embeds `PromptEnhancer._extract_improvements` (the `enhanced` argument is
unused in the source body too). -/
def extract_improvements (analysis : JVal) (_enhanced : JVal) :
    Except PErr (List Improvement) := do
  let a ← improvements_from analysis 3 "ambiguities" "Clarity" "Clarified ambiguous element: "
  let b ← improvements_from analysis 3 "missing_elements" "Completeness" "Added missing element: "
  let c ← improvements_from analysis 2 "context_gaps" "Context" "Added context: "
  return a ++ b ++ c ++
    [⟨"Structure", "Reorganized prompt for better AI comprehension", none, none⟩]

/-! ## Document-augmented path (`enhance_with_document` and
`app/api/routes.py` lines 84-92) -/

def action_keywords : List (String × String) :=
  [("improve", "Review and enhance the provided text for clarity and impact"),
   ("summarize", "Create a concise summary of the key points"),
   ("analyze", "Provide a detailed analysis of the content"),
   ("edit", "Edit for grammar, style, and coherence"),
   ("rewrite", "Rewrite the content for better clarity and flow"),
   ("review", "Provide feedback and suggestions for improvement"),
   ("translate", "Translate the content accurately"),
   ("explain", "Explain the main concepts in simpler terms")]

def findAction (prompt_lower : String) : List (String × String) → Option String
  | [] => none
  | (k, a) :: t => if strContains prompt_lower k then some a else findAction prompt_lower t

/-- Embeds `PromptEnhancer.enhance_with_document`: a pure string construction, no
backend call; the document is embedded whole. -/
def enhance_with_document (prompt document : String) (context : PromptContext)
    (style : PromptStyle) : String :=
  let prompt_lower := lowerStr prompt
  let action_found :=
    match findAction prompt_lower action_keywords with
    | some a => a
    | none =>
      if wordCount prompt < 3 then "Process and improve the provided document"
      else prompt
  ("Given the document provided as context, please " ++ action_found ++
   ".\n\nDocument context to work with:\n") ++ document ++
  ("\n\nRequirements:\n- Focus on " ++ context.value ++ " quality and " ++
   style.value ++
   " style\n- Maintain accuracy and original intent\n- Provide clear, actionable output\n- Be specific and thorough in your response")

/-- The document branch of the `/gpt-enhance` route handler
(`routes.gpt_enhance_prompt`, lines 84-92): it returns
`enhance_with_document`'s text directly; `i` is the backend-call counter
threaded through the request, unchanged because this branch issues no
chat-completion call. -/
def gpt_enhance_document (prompt document : String) (context : PromptContext)
    (style : PromptStyle) (i : Nat) : String × Nat :=
  (enhance_with_document prompt document context style, i)

/-! ## Knowledge integration (`app/services/knowledge_updater.py`) -/

def time_sensitive_keywords : List String :=
  ["latest", "current", "today", "recent", "now", "2025", "2024",
   "news", "update", "trending", "modern", "state-of-the-art",
   "best practices", "new features", "release", "version"]

def technical_terms_needing_updates : List String :=
  ["GPT-5", "GPT-4", "Claude", "Gemini", "AI model",
   "framework", "library", "API", "documentation",
   "benchmark", "performance", "optimization"]

/-- Embeds `KnowledgeUpdater.should_fetch_current_info` (the early returns of the
source are an inclusive disjunction of the same three checks). -/
def should_fetch_current_info (prompt context : String) : Bool :=
  let prompt_lower := lowerStr prompt
  time_sensitive_keywords.any (fun k => strContains prompt_lower k) ||
  technical_terms_needing_updates.any (fun t => strContains prompt_lower (lowerStr t)) ||
  ((["coding", "technical", "analysis"] : List String).contains context &&
   ["how to", "implement", "use", "setup"].any (fun w => strContains prompt_lower w))

def b2i (b : Bool) : Nat := if b then 1 else 0

/-- Embeds `SmartKnowledgeIntegration.should_enhance_with_knowledge`. -/
def should_enhance_with_knowledge (prompt context : String)
    (user_preference : Option String) : Bool :=
  if user_preference = some "always" then true
  else if user_preference = some "never" then false
  else
    let is_time_sensitive := should_fetch_current_info prompt context
    let is_technical := (["coding", "technical", "analysis"] : List String).contains context
    let mentions_specific_tech := ["gpt-5", "api", "framework", "latest", "current"].any
      (fun tech => strContains (lowerStr prompt) tech)
    let is_long_form := wordCount prompt > 20
    let score := b2i is_time_sensitive * 3 + b2i is_technical * 2 +
      b2i mentions_specific_tech * 2 + b2i is_long_form * 1
    score ≥ 3

/-- The outcome of one `KnowledgeUpdater.fetch_current_knowledge` HTTP
round-trip: the success dict's content fields, or the caught exception's
`str(e)` (the source never lets the exception escape). -/
inductive FetchPayload where
  | success : (instant_answer source url : String) → (related : List (String × String)) → FetchPayload
  | failure : (msg : String) → FetchPayload

/-- The dict `fetch_current_knowledge` returns: the query plus the payload
(`fetched_at` is elided). -/
structure Fetched where
  query : String
  payload : FetchPayload

def fetch_current_knowledge (provider : String → FetchPayload) (q : String) : Fetched :=
  ⟨q, provider q⟩

/-- Truthiness of `knowledge.get("error")` on a fetch result: the success
dict has no `error` key, and an error message is truthy iff nonempty. -/
def errTruthy : FetchPayload → Bool
  | .success _ _ _ _ => false
  | .failure m => !m.isEmpty

def tech_terms : List String :=
  ["react", "vue", "angular", "python", "javascript",
   "fastapi", "django", "tensorflow", "pytorch"]

/-- Embeds `KnowledgeUpdater._extract_search_terms`. -/
def extract_search_terms (prompt context : String) : List String :=
  let pl := lowerStr prompt
  let t1 : List String :=
    if context = "coding" then
      (tech_terms.filter (fun t => strContains pl t)).map
        (fun t => t ++ " latest features 2025")
    else []
  let t2 := t1 ++ (if strContains pl "gpt" then ["GPT-5 capabilities 2025"] else [])
  let t3 := t2 ++ (if strContains pl "claude" then ["Claude AI latest updates 2025"] else [])
  if t3.isEmpty then
    [String.intercalate " " ((wordsOf prompt).take 5) ++ " 2025"]
  else t3

/-- The per-result lines of `_generate_temporal_context`: a truthy
`instant_answer` contributes its first 200 characters, with a source line
nested under the same check. -/
def temporal_lines : List Fetched → List String
  | [] => []
  | f :: t =>
    (match f.payload with
     | .success ia src _ _ =>
       if !ia.isEmpty then
         ("- " ++ f.query ++ ": " ++ String.mk (ia.data.take 200) ++ "...") ::
           (if !src.isEmpty then ["  Source: " ++ src] else [])
       else []
     | .failure _ => []) ++ temporal_lines t

/-- Embeds `KnowledgeUpdater._generate_temporal_context`. -/
def generate_temporal_context (current_info : List Fetched) (today : String) : String :=
  let context_parts :=
    ["### Temporal Context",
     "Knowledge Cutoff: January 2025",
     "Current Date: " ++ today,
     "Information Freshness: Real-time"] ++
    (if !current_info.isEmpty then
      "\n### Current Information" :: temporal_lines current_info
     else [])
  String.intercalate "\n" context_parts

structure KnowledgeEnhancements where
  needs_current_info : Bool
  current_knowledge : Option (List Fetched)
  temporal_context : Option String
  suggested_additions : List String

/-- Embeds `KnowledgeUpdater.enhance_with_current_knowledge` with
`fetch_updates=True` (as called from `integrate_knowledge`); `today`
stands for `datetime.now()`'s formatted date. -/
def enhance_with_current_knowledge (provider : String → FetchPayload)
    (today : String) (prompt context : String) : KnowledgeEnhancements :=
  if should_fetch_current_info prompt context then
    let search_terms := extract_search_terms prompt context
    let current_info :=
      ((search_terms.take 2).map (fetch_current_knowledge provider)).filter
        (fun k => !errTruthy k.payload)
    if !current_info.isEmpty then
      { needs_current_info := true,
        current_knowledge := some current_info,
        temporal_context := some (generate_temporal_context current_info today),
        suggested_additions :=
          ["Note: Information current as of " ++ today,
           "Consider recent developments in the field",
           "Account for latest best practices and updates"] }
    else
      { needs_current_info := true, current_knowledge := none,
        temporal_context := none, suggested_additions := [] }
  else
    { needs_current_info := false, current_knowledge := none,
      temporal_context := none, suggested_additions := [] }

/-- The index before which `integrate_knowledge` splices the temporal
block: one past the first line starting with `###`, else 0. -/
def insertIdxAux : List String → Nat → Nat
  | [], _ => 0
  | l :: t, i => if strStartsWith l "###" then i + 1 else insertIdxAux t (i + 1)

/-- The splice step of `integrate_knowledge` (lines 284-300). -/
def spliceTemporal (tc : Option String) (enhanced_prompt : String) : String :=
  let lines := enhanced_prompt.splitOn "\n"
  let insert_index := insertIdxAux lines 0
  match tc with
  | some t =>
    if !t.isEmpty then
      String.intercalate "\n" (insertAt (insert_index + 1) "" (insertAt insert_index t lines))
    else String.intercalate "\n" lines
  | none => String.intercalate "\n" lines

/-- Embeds `SmartKnowledgeIntegration.integrate_knowledge` for a string
`enhanced_prompt` (the `prompt` parameter drives all decisions). -/
def integrate_knowledge (provider : String → FetchPayload) (today : String)
    (prompt enhanced_prompt context : String) (user_preference : Option String) : String :=
  if !should_enhance_with_knowledge prompt context user_preference then enhanced_prompt
  else
    let knowledge := enhance_with_current_knowledge provider today prompt context
    match knowledge.current_knowledge with
    | none => enhanced_prompt
    | some [] => enhanced_prompt
    | some _ => spliceTemporal knowledge.temporal_context enhanced_prompt

/-- Whether `integrate_knowledge` reaches the splice (so that a non-string
`enhanced_prompt` value would raise at `.split`). -/
def would_splice (provider : String → FetchPayload) (today : String)
    (prompt context : String) (user_preference : Option String) : Bool :=
  should_enhance_with_knowledge prompt context user_preference &&
  (match (enhance_with_current_knowledge provider today prompt context).current_knowledge with
   | some (_ :: _) => true
   | _ => false)

/-- Embeds `integrate_knowledge` as called from `enhance_prompt` on the JSON
value stored under `enhanced_prompt` (which the simple tier does not
guarantee to be a string): Python only raises on a non-string when the
splice is actually reached. -/
def integrate_knowledge_j (provider : String → FetchPayload) (today : String)
    (prompt : String) (ep : JVal) (context : String)
    (user_preference : Option String) : Except PErr JVal :=
  match ep with
  | .jstr s => .ok (.jstr (integrate_knowledge provider today prompt s context user_preference))
  | v =>
    if would_splice provider today prompt context user_preference then .error .attributeError
    else .ok v

/-! ## The orchestrator (`PromptEnhancer.enhance_prompt`) -/

/-- The tail of `enhance_prompt` after knowledge integration (lines
91-105): improvements extraction, then the `PromptResponse` construction
with its pydantic validation of the string and list fields. -/
def assemble_rest (p : String) (enhanced analysis : JVal)
    (score_before score_after : PromptScore) : Except PErr PromptResponse := do
  let improvements ← extract_improvements analysis enhanced
  let epv ← jSubscript enhanced "enhanced_prompt"
  let exv ← jSubscript enhanced "explanation"
  let tipsv ← jGetD enhanced "tips" (.jarr [])
  match epv, exv, asStrList tipsv with
  | .jstr ep, .jstr ex, some tips =>
    return { original_prompt := p, enhanced_prompt := ep,
             improvements := improvements, explanation := ex,
             score_before := score_before, score_after := score_after,
             tips := tips }
  | _, _, _ => .error .validationError

/-- The knowledge-integration step of `enhance_prompt` (lines 82-89): the
source evaluates `enhanced["enhanced_prompt"]`, passes it through
`integrate_knowledge` with preference "always", and stores the result
back; each step's exception propagates. -/
def fetch_step (provider : String → FetchPayload) (today p cval : String)
    (enhanced0 : JVal) : Except PErr JVal :=
  match jSubscript enhanced0 "enhanced_prompt" with
  | .error e => .error e
  | .ok ep =>
    match integrate_knowledge_j provider today p ep cval (some "always") with
    | .error e => .error e
    | .ok ep2 => jSetItem enhanced0 "enhanced_prompt" ep2

/-- The post-tier steps of `enhance_prompt` (lines 82-105): the
knowledge-integration step when `fetch_current_knowledge` is set, then
`assemble_rest`. -/
def assemble (provider : String → FetchPayload) (today : String)
    (req : PromptRequest) (enhanced0 analysis : JVal)
    (score_before score_after : PromptScore) : Except PErr PromptResponse :=
  match
    (if req.fetch_current_knowledge then
      fetch_step provider today req.prompt req.context.value enhanced0
     else .ok enhanced0) with
  | .error e => .error e
  | .ok enhanced => assemble_rest req.prompt enhanced analysis score_before score_after

/-- Embeds `PromptEnhancer.enhance_prompt`: the tier state machine.  `oracle i`
is the raw completion text of the i-th chat-completion call of the
request; the second component of the result is the number of backend
calls issued (the index where the oracle stands when the request ends,
including the error exits).  In the complex branch the source reads
`enhanced["enhanced_prompt"]` to build the second scoring call, so a
failure of that subscript would end the request after 3 calls. -/
def enhance_prompt (loads : String → Option JVal) (oracle : Nat → String)
    (provider : String → FetchPayload) (today : String) (req : PromptRequest) :
    Except PErr PromptResponse × Nat :=
  let complexity := get_complexity_level req.prompt
  if complexity = "simple" then
    let enhanced := simple_enhancement_parse loads req.prompt (oracle 0)
    (assemble provider today req enhanced (.jobj simple_analysis)
      ⟨60, 50, 50, 53⟩ ⟨90, 85, 85, 87⟩, 1)
  else
    let analysis := analyze_prompt loads (oracle 0)
    let enhanced := JVal.jobj (generate_enhanced_prompt loads req.prompt
      req.context req.style req.include_examples (oracle 1))
    if complexity = "complex" then
      let score_before := score_prompt loads (oracle 2)
      match jSubscript enhanced "enhanced_prompt" with
      | .error e => (.error e, 3)
      | .ok _ =>
        let score_after := score_prompt loads (oracle 3)
        (assemble provider today req enhanced analysis score_before score_after, 4)
    else
      (assemble provider today req enhanced analysis ⟨70, 65, 60, 65⟩ ⟨85, 80, 80, 82⟩, 2)

/-- Modelled from the spec's words for the amended reading of the analysis
extraction: fenced ```json block when present, else the full text. -/
def fenced_or_full_spec (response : String) : String :=
  match afterFirstSep ("```json".data) response.data with
  | some tail => pyStrip (String.mk (beforeFirstSep ("```".data) tail))
  | none => response

/-- Modelled from the spec's words for the amended reading of the scoring
extraction: fenced ```json block, else the first regex match of
`\x7b[^\x7d]+\x7d`, else the full text. -/
def fenced_regex_or_full_spec (response : String) : String :=
  match afterFirstSep ("```json".data) response.data with
  | some tail => pyStrip (String.mk (beforeFirstSep ("```".data) tail))
  | none =>
    match regexBraceSearch response.data with
    | some m => String.mk m
    | none => response

/-! ## Supporting lemmas -/

theorem infixOf_isSome_afterFirstSep (pat l : List Char) :
    infixOf pat l = (afterFirstSep pat l).isSome := by
  induction l with
  | nil =>
    by_cases h : pat.isEmpty <;> simp [infixOf, afterFirstSep, h]
  | cons c t ih =>
    by_cases h : pat.isPrefixOf (c :: t) <;> simp [infixOf, afterFirstSep, h, ih]

theorem infixOf_singleton (c : Char) (l : List Char) :
    infixOf [c] l = l.contains c := by
  induction l with
  | nil => rfl
  | cons h t ih =>
    show ([c].isPrefixOf (h :: t) || infixOf [c] t) = (h :: t).contains c
    by_cases hc : c = h
    · subst hc
      simp [List.isPrefixOf]
    · have h1 : (c == h) = false := beq_false_of_ne hc
      have h2 : (h == c) = false := beq_false_of_ne (Ne.symm hc)
      simp [List.isPrefixOf, h1, h2, ih]
      exact fun h3 => absurd h3 hc

theorem lookupF_setField_self (fs : List (String × JVal)) (k : String) (v : JVal) :
    lookupF (setField fs k v) k = some v := by
  induction fs with
  | nil => simp [setField, lookupF]
  | cons p t ih =>
    by_cases h : p.1 = k <;> simp [setField, lookupF, h, ih]

theorem setField_of_lookupF (fs : List (String × JVal)) (k : String) (v : JVal)
    (h : lookupF fs k = some v) : setField fs k v = fs := by
  induction fs with
  | nil => simp [lookupF] at h
  | cons p t ih =>
    by_cases hk : p.1 = k
    · cases p with
      | mk k1 v1 =>
        simp only [lookupF] at h
        simp only at hk
        rw [if_pos hk] at h
        cases h
        simp [setField, hk]
    · cases p with
      | mk k1 v1 =>
        simp only at hk
        simp only [lookupF] at h
        rw [if_neg hk] at h
        simp [setField, hk, ih h]

theorem truthy_getD_exists (fs : List (String × JVal)) (k : String)
    (h : truthy ((lookupF fs k).getD .jnull) = true) :
    ∃ v, lookupF fs k = some v ∧ truthy v = true := by
  cases hl : lookupF fs k with
  | none => rw [hl] at h; simp [truthy] at h
  | some v => rw [hl] at h; exact ⟨v, rfl, h⟩

/-- Shows `_generate_enhanced_prompt` always returns a dict containing the
`enhanced_prompt` key. -/
theorem generate_has_enhanced_key (loads : String → Option JVal) (original : String)
    (context : PromptContext) (style : PromptStyle) (ie : Bool) (response : String) :
    ∃ v, lookupF (generate_enhanced_prompt loads original context style ie response)
      "enhanced_prompt" = some v := by
  unfold generate_enhanced_prompt
  split
  · next fs _ =>
    split
    · exact ⟨_, lookupF_setField_self fs _ _⟩
    · next hg =>
      have ht : truthy ((lookupF fs "enhanced_prompt").getD .jnull) = true := by
        by_cases h : truthy (pyGet fs "enhanced_prompt") = true
        · exact h
        · exfalso; apply hg; simp only [Bool.not_eq_true] at h
          simp [pyGet] at h ⊢
          simp [h]
      obtain ⟨v, hv, _⟩ := truthy_getD_exists fs _ ht
      exact ⟨v, hv⟩
  · exact ⟨_, rfl⟩
  · exact ⟨_, rfl⟩

theorem filter_err_nil (provider : String → FetchPayload)
    (h : ∀ q, errTruthy (provider q) = true) (l : List String) :
    (l.map (fetch_current_knowledge provider)).filter (fun k => !errTruthy k.payload) = [] := by
  induction l with
  | nil => rfl
  | cons q t ih =>
    simp only [List.map_cons, List.filter_cons, fetch_current_knowledge, h q,
      Bool.not_true]
    exact ih

theorem current_knowledge_none (provider : String → FetchPayload)
    (h : ∀ q, errTruthy (provider q) = true) (today prompt context : String) :
    (enhance_with_current_knowledge provider today prompt context).current_knowledge = none := by
  unfold enhance_with_current_knowledge
  by_cases hf : should_fetch_current_info prompt context = true
  · rw [if_pos hf]
    simp only [filter_err_nil provider h]
    simp
  · rw [if_neg hf]

theorem integrate_knowledge_err (provider : String → FetchPayload)
    (h : ∀ q, errTruthy (provider q) = true) (today prompt enhanced context : String)
    (pref : Option String) :
    integrate_knowledge provider today prompt enhanced context pref = enhanced := by
  unfold integrate_knowledge
  by_cases hs : should_enhance_with_knowledge prompt context pref = true
  · simp only [hs, Bool.not_true, if_neg (by simp : ¬ (false = true))]
    rw [current_knowledge_none provider h]
  · simp [hs]

theorem would_splice_false (provider : String → FetchPayload)
    (h : ∀ q, errTruthy (provider q) = true) (today prompt context : String)
    (pref : Option String) :
    would_splice provider today prompt context pref = false := by
  unfold would_splice
  rw [current_knowledge_none provider h]
  simp

theorem integrate_knowledge_j_err (provider : String → FetchPayload)
    (h : ∀ q, errTruthy (provider q) = true) (today prompt : String) (ep : JVal)
    (context : String) (pref : Option String) :
    integrate_knowledge_j provider today prompt ep context pref = .ok ep := by
  cases ep with
  | jstr s =>
    simp only [integrate_knowledge_j]
    rw [integrate_knowledge_err provider h]
  | jnull => simp only [integrate_knowledge_j]; rw [would_splice_false provider h]; simp
  | jbool b => simp only [integrate_knowledge_j]; rw [would_splice_false provider h]; simp
  | jnum n => simp only [integrate_knowledge_j]; rw [would_splice_false provider h]; simp
  | jarr xs => simp only [integrate_knowledge_j]; rw [would_splice_false provider h]; simp
  | jobj fs => simp only [integrate_knowledge_j]; rw [would_splice_false provider h]; simp

theorem fetch_step_id (provider : String → FetchPayload)
    (h : ∀ q, errTruthy (provider q) = true) (today p cval : String)
    (fs : List (String × JVal)) (v : JVal)
    (hv : lookupF fs "enhanced_prompt" = some v) :
    fetch_step provider today p cval (JVal.jobj fs) = Except.ok (JVal.jobj fs) := by
  have h1 : jSubscript (JVal.jobj fs) "enhanced_prompt" = .ok v := by
    simp [jSubscript, hv]
  unfold fetch_step
  rw [h1]
  show (match integrate_knowledge_j provider today p v cval (some "always") with
    | .error e => Except.error e
    | .ok ep2 => jSetItem (JVal.jobj fs) "enhanced_prompt" ep2) = Except.ok (JVal.jobj fs)
  rw [integrate_knowledge_j_err provider h]
  show jSetItem (JVal.jobj fs) "enhanced_prompt" v = Except.ok (JVal.jobj fs)
  simp [jSetItem, setField_of_lookupF fs _ v hv]

theorem assemble_fetch_invariant (provider : String → FetchPayload)
    (h : ∀ q, errTruthy (provider q) = true) (today p : String)
    (c : PromptContext) (s : PromptStyle) (ie : Bool)
    (enhanced0 analysis : JVal) (sb sa : PromptScore)
    (hsafe : (∃ fs v, enhanced0 = JVal.jobj fs ∧ lookupF fs "enhanced_prompt" = some v) ∨
      analysis = JVal.jobj simple_analysis) :
    assemble provider today ⟨p, c, s, ie, true⟩ enhanced0 analysis sb sa =
    assemble provider today ⟨p, c, s, ie, false⟩ enhanced0 analysis sb sa := by
  have key : ∀ fs v, lookupF fs "enhanced_prompt" = some v →
      assemble provider today ⟨p, c, s, ie, true⟩ (JVal.jobj fs) analysis sb sa =
      assemble provider today ⟨p, c, s, ie, false⟩ (JVal.jobj fs) analysis sb sa := by
    intro fs v hv
    unfold assemble
    rw [if_pos (show (true : Bool) = true from rfl)]
    rw [fetch_step_id provider h today p (PromptContext.value c) fs v hv]
    rfl
  rcases hsafe with ⟨fs, v, he, hv⟩ | ha
  · subst he
    exact key fs v hv
  · subst ha
    cases enhanced0 with
    | jobj fs =>
      cases hl : lookupF fs "enhanced_prompt" with
      | some v => exact key fs v hl
      | none =>
        unfold assemble fetch_step
        rw [if_pos (show (true : Bool) = true from rfl)]
        have h1 : jSubscript (JVal.jobj fs) "enhanced_prompt" =
            .error (.keyError "enhanced_prompt") := by
          simp [jSubscript, hl]
        rw [h1]
        show Except.error (PErr.keyError "enhanced_prompt") =
          assemble_rest p (JVal.jobj fs) (JVal.jobj simple_analysis) sb sa
        have h2 : jSubscript (JVal.jobj fs) "enhanced_prompt" =
            .error (.keyError "enhanced_prompt") := h1
        simp only [assemble_rest, extract_improvements, improvements_from, simple_analysis,
          pyGet, lookupF, truthy, h2]
        rfl
    | jnull =>
      unfold assemble fetch_step
      rfl
    | jbool b =>
      unfold assemble fetch_step
      rfl
    | jnum n =>
      unfold assemble fetch_step
      rfl
    | jstr t =>
      unfold assemble fetch_step
      rfl
    | jarr xs =>
      unfold assemble fetch_step
      rfl

/-! ## Claims -/

/-- C2: the complexity scorer assigns tier "complex" to "Build a real-time
chat application with user authentication", tier "moderate" to "Write a
Python function to reverse a string", and tier "moderate" to "Analyze
customer data". -/
theorem claim2_concrete_tiers :
    get_complexity_level "Build a real-time chat application with user authentication" = "complex" ∧
    get_complexity_level "Write a Python function to reverse a string" = "moderate" ∧
    get_complexity_level "Analyze customer data" = "moderate" := by
  refine ⟨?_, ?_, ?_⟩ <;> decide

/-- C3 counterexample: "What is recursion? explain" contains both a
simple-query phrase ("what is") and an explanation pattern ("explain"),
yet the scorer applies the simple-lookup adjustment of -2 (not the claimed
+1): the `elif` in the source gives the simple-query branch precedence, and
the overall tier comes out "simple" (with +1 it would be "moderate"). -/
theorem claim3_counterexample :
    simple_patterns.any (fun p => strContains (lowerStr "What is recursion? explain") p) = true ∧
    explain_patterns.any (fun p => strContains (lowerStr "What is recursion? explain") p) = true ∧
    simple_explain_adjust (lowerStr "What is recursion? explain") = -2 ∧
    get_complexity_level "What is recursion? explain" = "simple" := by
  refine ⟨?_, ?_, ?_, ?_⟩ <;> decide

/-- C3 amended: whenever a simple-query lexical phrase is present the
accumulator adjustment is -2, even if an explanation pattern is also
present (simple-lookup overrides explanation); the +1 explanation
adjustment applies only when no simple-query phrase matches. -/
theorem claim3_amended (t : String) :
    (simple_patterns.any (fun p => strContains (lowerStr t) p) = true →
      simple_explain_adjust (lowerStr t) = -2) ∧
    (simple_patterns.any (fun p => strContains (lowerStr t) p) = false →
      explain_patterns.any (fun p => strContains (lowerStr t) p) = true →
      simple_explain_adjust (lowerStr t) = 1) := by
  constructor
  · intro h
    simp [simple_explain_adjust, h]
  · intro h1 h2
    simp [simple_explain_adjust, h1, h2]

/-- C3 amended, witness: the two branches of `claim3_amended` evaluated at
the concrete inputs "what is X" and "explain X". -/
theorem claim3_amended_witness :
    simple_explain_adjust (lowerStr "what is X") = -2 ∧
    simple_explain_adjust (lowerStr "explain X") = 1 :=
  ⟨(claim3_amended "what is X").1 (by decide),
   (claim3_amended "explain X").2 (by decide) (by decide)⟩

set_option maxHeartbeats 800000 in
/-- C10: whenever `needs_role` reports `true`, the suggested role is a
`some` of a nonempty string (with "expert assistant" as the final
fallback). -/
theorem claim10_role_nonempty (prompt : String) (context : PromptContext)
    (h : (needs_role prompt context).1 = true) :
    ∃ r, (needs_role prompt context).2 = some r ∧ r ≠ "" := by
  revert h
  simp only [needs_role]
  split
  · intro h; cases h
  · split
    · intro h; cases h
    · split
      · intro h; cases h
      · split
        · intro _
          split
          · split
            · exact ⟨_, rfl, by decide⟩
            · split
              · exact ⟨_, rfl, by decide⟩
              · split
                · exact ⟨_, rfl, by decide⟩
                · split
                  · exact ⟨_, rfl, by decide⟩
                  · exact ⟨_, rfl, by decide⟩
          · next hcond =>
            cases context with
            | coding => exact ⟨_, rfl, by decide⟩
            | writing => exact ⟨_, rfl, by decide⟩
            | analysis => exact ⟨_, rfl, by decide⟩
            | creative => exact ⟨_, rfl, by decide⟩
            | technical => exact ⟨_, rfl, by decide⟩
            | general => exact absurd (by decide) hcond
        · intro h; cases h

/-- C10 witness: `claim10_role_nonempty` at the concrete prompt "design a
large scalable distributed system" in the general context. -/
theorem claim10_role_nonempty_witness :
    (needs_role "design a large scalable distributed system" PromptContext.general).1 = true ∧
    ∃ r, (needs_role "design a large scalable distributed system" PromptContext.general).2 =
      some r ∧ r ≠ "" :=
  ⟨by decide, claim10_role_nonempty "design a large scalable distributed system"
    PromptContext.general (by decide)⟩

theorem b2i_score_eq (a b m l : Bool) :
    decide (b2i a * 3 + b2i b * 2 + b2i m * 2 + b2i l * 1 ≥ 3) =
    decide (3 ≤ (if a then 3 else 0) + (if b then 2 else 0) +
      (if m then 2 else 0) + (if l then 1 else 0)) := by
  cases a <;> cases b <;> cases m <;> cases l <;> decide

/-- Modelled from the spec's words (§4.4): the weighted knowledge-fetch
score, 3 × time-sensitive + 2 × technical-domain + 2 × mentions-specific-
technology + 1 × over-20-words. -/
def knowledge_fetch_score_spec (prompt context : String) : Nat :=
  (if should_fetch_current_info prompt context then 3 else 0) +
  (if (["coding", "technical", "analysis"] : List String).contains context then 2 else 0) +
  (if ["gpt-5", "api", "framework", "latest", "current"].any
      (fun tech => strContains (lowerStr prompt) tech) then 2 else 0) +
  (if wordCount prompt > 20 then 1 else 0)

/-- C8: with no caller preference the knowledge-fetch decision is exactly
"weighted score at least 3"; the preference "always" forces `true` and
"never" forces `false`, whatever the text and domain. -/
theorem claim8_knowledge_gate (prompt context : String) :
    should_enhance_with_knowledge prompt context (some "always") = true ∧
    should_enhance_with_knowledge prompt context (some "never") = false ∧
    should_enhance_with_knowledge prompt context none =
      decide (3 ≤ knowledge_fetch_score_spec prompt context) := by
  refine ⟨rfl, rfl, ?_⟩
  simp only [should_enhance_with_knowledge, knowledge_fetch_score_spec]
  rw [if_neg (by simp : ¬((none : Option String) = some "always")),
      if_neg (by simp : ¬((none : Option String) = some "never"))]
  rw [decide_eq_decide]
  simp only [b2i]
  by_cases h1 : should_fetch_current_info prompt context = true <;>
    by_cases h2 : (["coding", "technical", "analysis"] : List String).contains context = true <;>
    by_cases h3 : (["gpt-5", "api", "framework", "latest", "current"].any
      (fun tech => strContains (lowerStr prompt) tech)) = true <;>
    by_cases h4 : wordCount prompt > 20 <;>
    simp [h1, h2, h3, h4]

theorem strContains_fenced (r : String) :
    strContains r "```json" = (afterFirstSep ("```json".data) r.data).isSome :=
  infixOf_isSome_afterFirstSep _ _

theorem strContains_lbrace (r : String) :
    strContains r "\x7b" = r.data.contains lbrace := by
  show infixOf "\x7b".data r.data = r.data.contains lbrace
  have h : "\x7b".data = [lbrace] := rfl
  rw [h, infixOf_singleton]

theorem strContains_rbrace (r : String) :
    strContains r "\x7d" = r.data.contains rbrace := by
  show infixOf "\x7d".data r.data = r.data.contains rbrace
  have h : "\x7d".data = [rbrace] := rfl
  rw [h, infixOf_singleton]

/-- C7 counterexample: the three extraction chains are not the same.  On
a completion with JSON embedded in prose and no fenced block, the analysis
extraction keeps the full text while the spec's three-step chain slices
from the first brace to the last; on a completion with nested braces, the
scoring extraction's regex stops at the first closing brace instead of
slicing to the last one. -/
theorem claim7_counterexample :
    extract_analyze "noise \x7b\"intent\": \"ok\"\x7d tail" ≠
      three_step_chain_spec "noise \x7b\"intent\": \"ok\"\x7d tail" ∧
    extract_analyze "noise \x7b\"intent\": \"ok\"\x7d tail" =
      "noise \x7b\"intent\": \"ok\"\x7d tail" ∧
    three_step_chain_spec "noise \x7b\"intent\": \"ok\"\x7d tail" =
      "\x7b\"intent\": \"ok\"\x7d" ∧
    extract_score "pre \x7b\"a\": \x7b\"b\": 1\x7d\x7d post" ≠
      three_step_chain_spec "pre \x7b\"a\": \x7b\"b\": 1\x7d\x7d post" ∧
    extract_score "pre \x7b\"a\": \x7b\"b\": 1\x7d\x7d post" =
      "\x7b\"a\": \x7b\"b\": 1\x7d" ∧
    three_step_chain_spec "pre \x7b\"a\": \x7b\"b\": 1\x7d\x7d post" =
      "\x7b\"a\": \x7b\"b\": 1\x7d\x7d" := by
  refine ⟨?_, ?_, ?_, ?_, ?_, ?_⟩ <;> decide

/-- C7 amended: the three-step chain (fenced block, brace slice, full
text) is exactly the extraction of the enhancement-generation calls (also
used by the simple-tier and fast variants); the analysis call instead uses
the two-step chain fenced-block-else-full-text, and the scoring call uses
fenced block, else the first regex brace match, else the full text. -/
theorem claim7_amended :
    (∀ r, extract_generate r = three_step_chain_spec r) ∧
    (∀ r, extract_analyze r = fenced_or_full_spec r) ∧
    (∀ r, extract_score r = fenced_regex_or_full_spec r) := by
  refine ⟨?_, ?_, ?_⟩ <;> intro r
  · cases hA : afterFirstSep ("```json".data) r.data with
    | some tail =>
      have hc : strContains r "```json" = true := by
        rw [strContains_fenced, hA]; rfl
      simp only [extract_generate, three_step_chain_spec, hc, if_true, hA, fencedPart,
        Option.getD_some]
    | none =>
      have hc : strContains r "```json" = false := by
        rw [strContains_fenced, hA]; rfl
      simp only [extract_generate, three_step_chain_spec, hc, Bool.false_eq_true,
        if_false, hA, strContains_lbrace, strContains_rbrace]
  · cases hA : afterFirstSep ("```json".data) r.data with
    | some tail =>
      have hc : strContains r "```json" = true := by
        rw [strContains_fenced, hA]; rfl
      simp only [extract_analyze, fenced_or_full_spec, hc, if_true, hA, fencedPart,
        Option.getD_some]
    | none =>
      have hc : strContains r "```json" = false := by
        rw [strContains_fenced, hA]; rfl
      simp only [extract_analyze, fenced_or_full_spec, hc, Bool.false_eq_true,
        if_false, hA]
  · cases hA : afterFirstSep ("```json".data) r.data with
    | some tail =>
      have hc : strContains r "```json" = true := by
        rw [strContains_fenced, hA]; rfl
      simp only [extract_score, fenced_regex_or_full_spec, hc, if_true, hA, fencedPart,
        Option.getD_some]
    | none =>
      have hc : strContains r "```json" = false := by
        rw [strContains_fenced, hA]; rfl
      simp only [extract_score, fenced_regex_or_full_spec, hc, Bool.false_eq_true,
        if_false, hA]

def big_document : String := String.mk (List.replicate 2500 'a')

/-- C6 counterexample: on the prompt "improve this text" with a
2500-character document, the document branch of the `/gpt-enhance` route
issues zero backend calls (not one), and the constructed text embeds the
full 2500-character document (no truncation to about 2000 characters). -/
theorem claim6_counterexample :
    (gpt_enhance_document "improve this text" big_document PromptContext.writing
      PromptStyle.detailed 0).2 = 0 ∧
    enhance_with_document "improve this text" big_document PromptContext.writing
      PromptStyle.detailed =
      "Given the document provided as context, please Review and enhance the provided text for clarity and impact.\n\nDocument context to work with:\n" ++
        big_document ++
        "\n\nRequirements:\n- Focus on writing quality and detailed style\n- Maintain accuracy and original intent\n- Provide clear, actionable output\n- Be specific and thorough in your response" ∧
    big_document.length = 2500 := by
  refine ⟨rfl, rfl, ?_⟩
  show (List.replicate 2500 'a').length = 2500
  rw [List.length_replicate]

set_option maxRecDepth 4000 in
/-- C6 amended: the document path issues no backend call at all (the
constructed text is returned to the caller directly), and the supplied
document is embedded in the constructed text whole, without truncation. -/
theorem claim6_amended (p d : String) (c : PromptContext) (s : PromptStyle) (i : Nat) :
    (gpt_enhance_document p d c s i).2 = i ∧
    ∃ pre post, enhance_with_document p d c s = pre ++ d ++ post := by
  constructor
  · rfl
  · refine ⟨"Given the document provided as context, please " ++
      (match findAction (lowerStr p) action_keywords with
       | some a => a
       | none => if wordCount p < 3 then "Process and improve the provided document" else p) ++
      ".\n\nDocument context to work with:\n",
      "\n\nRequirements:\n- Focus on " ++ c.value ++ " quality and " ++ s.value ++
      " style\n- Maintain accuracy and original intent\n- Provide clear, actionable output\n- Be specific and thorough in your response", rfl⟩

/-- C4: the number of backend completion calls (knowledge-provider calls
excluded) is exactly 1 for a simple-tier prompt, 2 for moderate
(analysis then generation), and 4 for complex (analysis, generation, and
two scoring calls), whatever the completions parse to. -/
theorem claim4_call_counts (loads : String → Option JVal) (oracle : Nat → String)
    (provider : String → FetchPayload) (today : String) (req : PromptRequest) :
    (enhance_prompt loads oracle provider today req).2 =
      (if get_complexity_level req.prompt = "simple" then 1
       else if get_complexity_level req.prompt = "complex" then 4 else 2) := by
  simp only [enhance_prompt]
  by_cases h1 : get_complexity_level req.prompt = "simple"
  · rw [if_pos h1, if_pos h1]
  · rw [if_neg h1, if_neg h1]
    by_cases h2 : get_complexity_level req.prompt = "complex"
    · rw [if_pos h2, if_pos h2]
      obtain ⟨v, hv⟩ := generate_has_enhanced_key loads req.prompt req.context req.style
        req.include_examples (oracle 1)
      have hs : jSubscript (JVal.jobj (generate_enhanced_prompt loads req.prompt req.context
          req.style req.include_examples (oracle 1))) "enhanced_prompt" = .ok v := by
        simp [jSubscript, hv]
      rw [hs]
    · rw [if_neg h2, if_neg h2]

/-- C9: when every knowledge-provider query returns an error indicator (a
truthy error message), `integrate_knowledge` returns the enhanced text
unchanged, and a request with `fetch_current_knowledge` set produces
exactly the same outcome as the same request without it: the failures are
swallowed and never fail the request. -/
theorem claim9_provider_errors (provider : String → FetchPayload)
    (h : ∀ q, errTruthy (provider q) = true) :
    (∀ today prompt enhanced context pref,
      integrate_knowledge provider today prompt enhanced context pref = enhanced) ∧
    (∀ (loads : String → Option JVal) (oracle : Nat → String) (today p : String)
        (c : PromptContext) (s : PromptStyle) (ie : Bool),
      enhance_prompt loads oracle provider today ⟨p, c, s, ie, true⟩ =
        enhance_prompt loads oracle provider today ⟨p, c, s, ie, false⟩) := by
  constructor
  · intro today prompt enhanced context pref
    exact integrate_knowledge_err provider h today prompt enhanced context pref
  · intro loads oracle today p c s ie
    simp only [enhance_prompt]
    by_cases h1 : get_complexity_level p = "simple"
    · rw [if_pos h1, if_pos h1]
      rw [assemble_fetch_invariant provider h today p c s ie _ _ _ _ (Or.inr rfl)]
    · rw [if_neg h1, if_neg h1]
      by_cases h2 : get_complexity_level p = "complex"
      · rw [if_pos h2, if_pos h2]
        obtain ⟨v, hv⟩ := generate_has_enhanced_key loads p c s ie (oracle 1)
        have hs : jSubscript (JVal.jobj (generate_enhanced_prompt loads p c s ie
            (oracle 1))) "enhanced_prompt" = .ok v := by
          simp [jSubscript, hv]
        rw [hs]
        rw [assemble_fetch_invariant provider h today p c s ie _ _ _ _
          (Or.inl ⟨_, v, rfl, hv⟩)]
      · rw [if_neg h2, if_neg h2]
        obtain ⟨v, hv⟩ := generate_has_enhanced_key loads p c s ie (oracle 1)
        rw [assemble_fetch_invariant provider h today p c s ie _ _ _ _
          (Or.inl ⟨_, v, rfl, hv⟩)]

/-- C9 witness: `claim9_provider_errors` at an always-failing provider, a
concrete integration call, and a concrete fetch-enabled request. -/
theorem claim9_provider_errors_witness :
    integrate_knowledge (fun _ => .failure "network down") "2025-01-01"
      "What are the latest GPT-5 features?" "ENHANCED" "coding" none = "ENHANCED" ∧
    enhance_prompt (fun _ => none) (fun _ => "junk") (fun _ => .failure "network down")
      "2025-01-01" ⟨"What are the latest GPT-5 features?", .coding, .detailed, false, true⟩ =
      enhance_prompt (fun _ => none) (fun _ => "junk") (fun _ => .failure "network down")
        "2025-01-01" ⟨"What are the latest GPT-5 features?", .coding, .detailed, false, false⟩ :=
  ⟨(claim9_provider_errors (fun _ => .failure "network down") (fun _ => rfl)).1
      "2025-01-01" "What are the latest GPT-5 features?" "ENHANCED" "coding" none,
   (claim9_provider_errors (fun _ => .failure "network down") (fun _ => rfl)).2
      (fun _ => none) (fun _ => "junk") "2025-01-01"
      "What are the latest GPT-5 features?" .coding .detailed false⟩

theorem string_data_append (a b : String) : (a ++ b).data = a.data ++ b.data := rfl

theorem append_ne_left (a b : String) (hb : b ≠ "") : a ++ b ≠ a := by
  intro h
  have hd : a.data ++ b.data = a.data := by
    rw [← string_data_append, h]
  have hlen := congrArg List.length hd
  rw [List.length_append] at hlen
  have hb0 : b.data.length = 0 := by omega
  exact hb (String.ext (List.eq_nil_of_length_eq_zero hb0))

theorem append_ne_empty (a b : String) (hb : b ≠ "") : a ++ b ≠ "" := by
  intro h
  have hd : a.data ++ b.data = [] := by
    rw [← string_data_append, h]
  exact hb (String.ext (List.append_eq_nil.mp hd).2)

/-- The backend completion for the C1 counterexample: well-formed JSON
whose `enhanced_prompt` is exactly the original prompt. -/
def c1_completion : String :=
  "\x7b\"enhanced_prompt\": \"What is the capital of France?\", \"explanation\": \"e\", \"tips\": []\x7d"

/-- Models `json.loads` on the C1 counterexample's extracted text (the brace
slice of `c1_completion` is `c1_completion` itself, and Python's
`json.loads` parses it to this three-key dict). -/
def c1_loads (s : String) : Option JVal :=
  if s = c1_completion then
    some (.jobj [("enhanced_prompt", .jstr "What is the capital of France?"),
                 ("explanation", .jstr "e"), ("tips", .jarr [])])
  else none

def c1_request : PromptRequest :=
  ⟨"What is the capital of France?", .general, .detailed, false, false⟩

/-- C1 counterexample: "What is the capital of France?" is a simple-tier
prompt, and when the backend's JSON echoes the original prompt as
`enhanced_prompt`, `enhance_prompt` returns it unchanged — the simple-tier
path accepts the parsed value unchecked, so the result equals the
unmodified original prompt. -/
theorem claim1_counterexample :
    get_complexity_level c1_request.prompt = "simple" ∧
    (enhance_prompt c1_loads (fun _ => c1_completion) (fun _ => .failure "err")
      "2025-01-01" c1_request).1 =
      .ok { original_prompt := "What is the capital of France?",
            enhanced_prompt := "What is the capital of France?",
            improvements := [⟨"Structure", "Reorganized prompt for better AI comprehension",
              none, none⟩],
            explanation := "e",
            score_before := ⟨60, 50, 50, 53⟩,
            score_after := ⟨90, 85, 85, 87⟩,
            tips := [] } ∧
    c1_request.prompt = "What is the capital of France?" := by
  refine ⟨by decide, rfl, rfl⟩

/-- C1 amended: the non-empty / not-equal-to-original guarantee holds for
the moderate/complex generation path: `_generate_enhanced_prompt` always
yields an `enhanced_prompt` that is either the parsed backend value —
in which case it is truthy and differs from the original — or the
deterministic default enhancement; and that default enhancement is itself
non-empty and different from the original whenever the canned-sort branch
is not taken (in particular for every non-coding context or sort-free
original).  The simple-tier path (see the counterexample) accepts the
parsed backend value unchecked. -/
theorem claim1_amended :
    (∀ (loads : String → Option JVal) (original : String) (context : PromptContext)
        (style : PromptStyle) (ie : Bool) (response : String),
      ∃ v, lookupF (generate_enhanced_prompt loads original context style ie response)
          "enhanced_prompt" = some v ∧
        ((truthy v = true ∧ v ≠ JVal.jstr original) ∨
          v = JVal.jstr (generate_default_enhancement original context style ie))) ∧
    (∀ (original : String) (context : PromptContext) (style : PromptStyle) (ie : Bool),
      (context = PromptContext.coding → strContains (lowerStr original) "sort" = false) →
      generate_default_enhancement original context style ie ≠ original ∧
      generate_default_enhancement original context style ie ≠ "") := by
  constructor
  · intro loads original context style ie response
    unfold generate_enhanced_prompt
    split
    · next fs _ =>
      split
      · exact ⟨_, lookupF_setField_self fs _ _, Or.inr rfl⟩
      · next hg =>
        have hg' := hg
        rw [Bool.or_eq_true, not_or] at hg'
        obtain ⟨hg1, hg2⟩ := hg'
        have ht : truthy ((lookupF fs "enhanced_prompt").getD .jnull) = true := by
          rcases Bool.eq_false_or_eq_true (truthy (pyGet fs "enhanced_prompt")) with htr | hf
          · rw [show pyGet fs "enhanced_prompt" =
              (lookupF fs "enhanced_prompt").getD .jnull from rfl] at htr
            exact htr
          · exact absurd (by simp [hf]) hg1
        obtain ⟨v, hv, hvt⟩ := truthy_getD_exists fs _ ht
        refine ⟨v, hv, Or.inl ⟨hvt, ?_⟩⟩
        intro heq
        apply hg2
        have hpg : pyGet fs "enhanced_prompt" = v := by simp [pyGet, hv]
        rw [hpg, heq]
        simp [pyEqStr]
    · exact ⟨_, rfl, Or.inr rfl⟩
    · exact ⟨_, rfl, Or.inr rfl⟩
  · intro original context style ie hctx
    unfold generate_default_enhancement
    split
    · next hs =>
      rw [Bool.and_eq_true] at hs
      obtain ⟨hsort, hcode⟩ := hs
      have hc : context = PromptContext.coding := by
        exact of_decide_eq_true hcode
      rw [hctx hc] at hsort
      cases hsort
    · have hsuf : default_enhancement_suffix ≠ "" := by decide
      exact ⟨append_ne_left original default_enhancement_suffix hsuf,
             append_ne_empty original default_enhancement_suffix hsuf⟩

/-- C1 amended, witness: `claim1_amended` at a parse-failing load, the
original "hi there", the general context, and completion "x". -/
theorem claim1_amended_witness :
    (∃ v, lookupF (generate_enhanced_prompt (fun _ => none) "hi there"
        PromptContext.general PromptStyle.detailed false "x") "enhanced_prompt" = some v ∧
      ((truthy v = true ∧ v ≠ JVal.jstr "hi there") ∨
        v = JVal.jstr (generate_default_enhancement "hi there" PromptContext.general
          PromptStyle.detailed false))) ∧
    (generate_default_enhancement "hi there" PromptContext.general PromptStyle.detailed false ≠
      "hi there" ∧
     generate_default_enhancement "hi there" PromptContext.general PromptStyle.detailed false ≠
      "") :=
  ⟨claim1_amended.1 (fun _ => none) "hi there" PromptContext.general PromptStyle.detailed
      false "x",
   claim1_amended.2 "hi there" PromptContext.general PromptStyle.detailed false
      (fun hc => absurd hc (by decide))⟩

def c5_completion : String := "\x7b\"a\": 1\x7d"

/-- Models `json.loads` on the C5 counterexample's extracted text (the brace
slice of `c5_completion` is `c5_completion` itself, which Python parses
to the one-key dict `\x7b"a": 1\x7d`). -/
def c5_loads (s : String) : Option JVal :=
  if s = c5_completion then some (.jobj [("a", .jnum 1)]) else none

def c5_request : PromptRequest :=
  ⟨"What is the capital of France?", .general, .detailed, false, false⟩

/-- C5 counterexample: a backend completion that is perfectly extractable
JSON but is missing the required keys is not recovered by the fallback on
the simple-tier path: the parsed dict is returned unchecked and the later
`enhanced["enhanced_prompt"]` access raises `KeyError`, which surfaces to
the caller as a failure. -/
theorem claim5_counterexample :
    (enhance_prompt c5_loads (fun _ => c5_completion) (fun _ => .failure "err")
      "2025-01-01" c5_request).1 = .error (.keyError "enhanced_prompt") := rfl

/-- C5 amended: a completion that is not extractable JSON never causes the
pipeline to raise: with every parse failing, `enhance_prompt` returns a
well-formed result in every tier, and (without knowledge integration) its
enhanced text is exactly the deterministic fallback — the
"(Please provide more specific details)" suffix on the simple tier, the
default enhancement on the other tiers.  A completion that parses while
missing required keys is not always recovered (see the counterexample). -/
theorem claim5_amended (oracle : Nat → String) (provider : String → FetchPayload)
    (today : String) (req : PromptRequest) :
    ∃ r, (enhance_prompt (fun _ => none) oracle provider today req).1 = .ok r ∧
      (req.fetch_current_knowledge = false →
        r.enhanced_prompt =
          (if get_complexity_level req.prompt = "simple" then
            req.prompt ++ " (Please provide more specific details)"
           else generate_default_enhancement req.prompt req.context req.style
             req.include_examples)) := by
  simp only [enhance_prompt]
  by_cases h1 : get_complexity_level req.prompt = "simple"
  · rw [if_pos h1, if_pos h1]
    by_cases hf : req.fetch_current_knowledge = true
    · simp only [assemble]
      rw [if_pos hf]
      exact ⟨_, rfl, fun hff => Bool.noConfusion (hff ▸ hf)⟩
    · simp only [assemble]
      rw [if_neg hf]
      exact ⟨_, rfl, fun _ => rfl⟩
  · rw [if_neg h1, if_neg h1]
    by_cases h2 : get_complexity_level req.prompt = "complex"
    · rw [if_pos h2]
      by_cases hf : req.fetch_current_knowledge = true
      · simp only [assemble]
        rw [if_pos hf]
        exact ⟨_, rfl, fun hff => Bool.noConfusion (hff ▸ hf)⟩
      · simp only [assemble]
        rw [if_neg hf]
        exact ⟨_, rfl, fun _ => rfl⟩
    · rw [if_neg h2]
      by_cases hf : req.fetch_current_knowledge = true
      · simp only [assemble]
        rw [if_pos hf]
        exact ⟨_, rfl, fun hff => Bool.noConfusion (hff ▸ hf)⟩
      · simp only [assemble]
        rw [if_neg hf]
        exact ⟨_, rfl, fun _ => rfl⟩

/-- C5 amended, witness: `claim5_amended` at a concrete simple-tier
request with nothing parsing, evaluated to the concrete fallback text. -/
theorem claim5_amended_witness :
    ∃ r, (enhance_prompt (fun _ => none) (fun _ => "junk")
        (fun _ => FetchPayload.failure "err") "2025-01-01"
        ⟨"What is the capital of France?", .general, .detailed, false, false⟩).1 = .ok r ∧
      r.enhanced_prompt = "What is the capital of France? (Please provide more specific details)" := by
  obtain ⟨r, hr, hv⟩ := claim5_amended (fun _ => "junk") (fun _ => FetchPayload.failure "err")
    "2025-01-01" ⟨"What is the capital of France?", .general, .detailed, false, false⟩
  refine ⟨r, hr, ?_⟩
  rw [hv rfl]
  decide
